import Mathlib

/-
Verification of the TCP-to-OSC bridge (src/python_osc/tcp_to_osc.py).

The development is a shallow embedding of the bridge's pure protocol logic:
byte strings are `List Nat` (little-endian multi-byte fields decoded by
`fromLE`), fallible interpretation returns an explicit result type, socket
effects are replaced by explicit oracles (a flag for socket errors, the bytes
a `recv` returned, one success flag per command round trip), and the shared
module-level configuration globals are gathered into one `BridgeState`
record that handlers transform.
-/

namespace MusiGait

/-- Protocol version constant (`VERSION = 1`). -/
def VERSION : Nat := 1

/-- Fixed telemetry multiplier (`DATA_MULTIPLIER = 10000`). -/
def DATA_MULTIPLIER : ℚ := 10000

/-- Little-endian interpretation of a byte list (first byte least significant),
mirroring `struct.unpack('<...')` on the listed bytes. -/
def fromLE : List Nat → Nat
  | [] => 0
  | b :: rest => b + 256 * fromLE rest

/-- Little-endian encoding of `v` into `width` bytes, mirroring
`struct.pack('<...', v)` (which requires `v < 256 ^ width`; the encoding
truncates mod `256 ^ width`, and all command codes are far below the bound). -/
def toLE : Nat → Nat → List Nat
  | 0, _ => []
  | width + 1, v => v % 256 :: toLE width (v / 256)

/-- `to_packet`: an 8-byte packet, 4 bytes version followed by 4 bytes
command code, little-endian (`struct.pack("<II", VERSION, command_int)`). -/
def to_packet (command_int : Nat) : List Nat :=
  toLE 4 VERSION ++ toLE 4 command_int

/-- The fields of a successfully interpreted 16-byte response.
`human_time_seconds` models the human-readable time the source derives from
`timestamp / 1000.0` (UTC formatting itself is outside the embedding). -/
structure ResponseData where
  protocol_version : Nat
  timestamp : Nat
  human_time_seconds : ℚ
  status : Nat
deriving Repr, DecidableEq

/-- Result of `interpret_response`: either a dict with an `"error"` key, or
the parsed fields. -/
inductive InterpretResult where
  | err : String → InterpretResult
  | ok : ResponseData → InterpretResult
deriving Repr, DecidableEq

/-- Whether an interpretation result carries the `"error"` key. -/
def hasError : InterpretResult → Bool
  | .err _ => true
  | .ok _ => false

/-- `interpret_response`: rejects any buffer whose length is not 16, then
unpacks `<I Q I` (version, millisecond timestamp, status) and rejects a
version different from `VERSION`; otherwise returns the parsed fields, with
the timestamp also converted from milliseconds to seconds. -/
def interpret_response (response : List Nat) : InterpretResult :=
  if response.length ≠ 16 then
    .err "Invalid response length"
  else if fromLE (response.take 4) ≠ VERSION then
    .err "Invalid protocol version"
  else
    .ok ⟨fromLE (response.take 4), fromLE ((response.drop 4).take 8),
         (fromLE ((response.drop 4).take 8) : ℚ) / 1000, fromLE (response.drop 12)⟩

/-- The status check the callers perform on a parsed response
(`parsed_response["status"] != 1` aborts). -/
def response_status_ok (r : ResponseData) : Bool :=
  r.status == 1

/-- The command code enumeration (`class Command(Enum)`). -/
inductive Command where
  | HANDSHAKE
  | CONNECT_DELSYS_ANALOG
  | CONNECT_DELSYS_EMG
  | CONNECT_MAGSTIM
  | ZERO_DELSYS_ANALOG
  | ZERO_DELSYS_EMG
  | DISCONNECT_DELSYS_ANALOG
  | DISCONNECT_DELSYS_EMG
  | DISCONNECT_MAGSTIM
  | START_RECORDING
  | STOP_RECORDING
  | GET_LAST_TRIAL_DATA
  | ADD_ANALYZER
  | REMOVE_ANALYZER
  | FAILED
deriving Repr, DecidableEq

/-- Numeric value of each command code. -/
def Command.value : Command → Nat
  | .HANDSHAKE => 0
  | .CONNECT_DELSYS_ANALOG => 10
  | .CONNECT_DELSYS_EMG => 11
  | .CONNECT_MAGSTIM => 12
  | .ZERO_DELSYS_ANALOG => 40
  | .ZERO_DELSYS_EMG => 41
  | .DISCONNECT_DELSYS_ANALOG => 20
  | .DISCONNECT_DELSYS_EMG => 21
  | .DISCONNECT_MAGSTIM => 22
  | .START_RECORDING => 30
  | .STOP_RECORDING => 31
  | .GET_LAST_TRIAL_DATA => 32
  | .ADD_ANALYZER => 50
  | .REMOVE_ANALYZER => 51
  | .FAILED => 100

/-- `send_command`, with the socket abstracted: `sockErr` is true when
`sendall`/`recv` raises `socket.error`, and `response` is what `recv(16)`
returned otherwise. Returns `True` only when the response interprets without
error and its status is 1; any interpretation error or socket error is
logged and yields `False`. -/
def send_command (sockErr : Bool) (response : List Nat) (_command : Command) : Bool :=
  if sockErr then false
  else
    match interpret_response response with
    | .err _ => false
    | .ok r => response_status_ok r

lemma fromLE_toLE (width v : Nat) : fromLE (toLE width v) = v % 256 ^ width := by
  induction width generalizing v with
  | zero =>
    simp only [toLE, fromLE, pow_zero]
    omega
  | succ w ih =>
    simp only [toLE, fromLE, ih]
    rw [pow_succ, mul_comm (256 ^ w) 256, Nat.mod_mul]

lemma command_value_lt (c : Command) : c.value < 256 ^ 4 := by
  cases c <;> simp [Command.value]

lemma length_toLE (width v : Nat) : (toLE width v).length = width := by
  induction width generalizing v with
  | zero => simp [toLE]
  | succ w ih => simp [toLE, ih]

/-- **C5.** `interpret_response` returns an error exactly when the buffer's
length is not 16 bytes or its embedded little-endian version field differs
from `VERSION`; on every 16-byte buffer with the supported version it
returns the parsed fields: the status read from bytes 12..15 (the `status
== 1` test used by every caller means OK exactly when those bytes decode to
1) and the millisecond timestamp from bytes 4..11, with the human-readable
time derived from the timestamp converted to seconds (`timestamp / 1000`). -/
theorem interpret_response_spec (response : List Nat) :
    (hasError (interpret_response response) = true ↔
      response.length ≠ 16 ∨ fromLE (response.take 4) ≠ VERSION) ∧
    (response.length = 16 → fromLE (response.take 4) = VERSION →
      interpret_response response =
        .ok ⟨VERSION, fromLE ((response.drop 4).take 8),
             (fromLE ((response.drop 4).take 8) : ℚ) / 1000,
             fromLE (response.drop 12)⟩ ∧
      ∀ r, interpret_response response = .ok r →
        (r.human_time_seconds = (r.timestamp : ℚ) / 1000 ∧
         (response_status_ok r = true ↔ fromLE (response.drop 12) = 1))) := by
  have hok : response.length = 16 → fromLE (response.take 4) = VERSION →
      interpret_response response =
        .ok ⟨VERSION, fromLE ((response.drop 4).take 8),
             (fromLE ((response.drop 4).take 8) : ℚ) / 1000,
             fromLE (response.drop 12)⟩ := by
    intro h16 hv
    simp [interpret_response, h16, hv]
  constructor
  · unfold interpret_response
    split_ifs with h16 hv
    · simp [hasError, h16]
    · simp [hasError, h16, hv]
    · simp [hasError, h16, hv]
  · intro h16 hv
    refine ⟨hok h16 hv, ?_⟩
    intro r hr
    rw [hok h16 hv] at hr
    cases hr
    exact ⟨rfl, by simp [response_status_ok]⟩

/-- Witness for C5: a concrete 16-byte response with version 1, timestamp
1000 ms and status 1 parses to status 1 (OK) and 1 second. -/
theorem interpret_response_spec_witness :
    interpret_response [1, 0, 0, 0, 232, 3, 0, 0, 0, 0, 0, 0, 1, 0, 0, 0] =
      .ok ⟨VERSION, 1000, (1000 : ℚ) / 1000, 1⟩ := by
  have h := (interpret_response_spec
    [1, 0, 0, 0, 232, 3, 0, 0, 0, 0, 0, 0, 1, 0, 0, 0]).2
    (by decide) (by decide)
  rw [h.1]
  norm_num [fromLE]

/-- **C8.** `send_command` sends the 8-byte packet `to_packet` (4 bytes
little-endian version followed by 4 bytes little-endian command code), and
returns `True` exactly when no socket error occurred, the 16-byte response
interpreted without error, and the decoded status equals 1; every socket
error or interpretation failure yields `False` instead of raising. -/
theorem send_command_spec (sockErr : Bool) (response : List Nat) (c : Command) :
    (send_command sockErr response c = true ↔
      sockErr = false ∧
        ∃ r, interpret_response response = .ok r ∧ r.status = 1) ∧
    (to_packet c.value).length = 8 ∧
    (to_packet c.value).take 4 = toLE 4 VERSION ∧
    fromLE ((to_packet c.value).take 4) = VERSION ∧
    fromLE ((to_packet c.value).drop 4) = c.value := by
  refine ⟨?_, ?_, ?_, ?_, ?_⟩
  · unfold send_command
    cases sockErr with
    | true => simp
    | false =>
      cases hir : interpret_response response with
      | err m => simp [hir]
      | ok r => simp [hir, response_status_ok]
  · simp [to_packet, length_toLE]
  · simp only [to_packet]
    rw [List.take_left' (length_toLE 4 VERSION)]
  · simp only [to_packet]
    rw [List.take_left' (length_toLE 4 VERSION), fromLE_toLE]
    norm_num [VERSION]
  · simp only [to_packet]
    rw [List.drop_left' (length_toLE 4 VERSION), fromLE_toLE]
    exact Nat.mod_eq_of_lt (command_value_lt c)

/-- `parse_data_length`: the expected body length, read little-endian from
bytes 12..15 of the header (`struct.unpack('<I', data[12:16])`). -/
def parse_data_length (data : List Nat) : Nat :=
  fromLE ((data.drop 12).take 4)

/-- State of one stream decoder (`listen_to_live_data` /
`listen_to_live_analyses` share this loop structure): the accumulated
`buffer` and the `expected_length` (`none` models Python's `None`). -/
structure DecState where
  buffer : List Nat
  expected : Option Nat
deriving Repr, DecidableEq

/-- Decoder state at the top of the listener loop. -/
def initDecState : DecState := ⟨[], none⟩

/-- The `while expected_length and len(buffer) >= expected_length` loop.
Because the body immediately resets `expected_length` to `None`, the loop
runs at most once per received chunk, so it is an `if`: when the expected
length is non-zero (Python truthiness: `0` is falsy) and enough bytes are
buffered, exactly `n` bytes are emitted as one frame and the state resets;
otherwise the expected length is kept. -/
def emitStep (buf : List Nat) (n : Nat) : DecState × List (List Nat) :=
  if n ≠ 0 ∧ n ≤ buf.length then
    (⟨buf.drop n, none⟩, [buf.take n])
  else
    (⟨buf, some n⟩, [])

/-- One iteration of the listener loop on a chunk returned by `recv`:
extend the buffer; if no expected length is set and at least 16 bytes are
buffered, read the length from the first 16 header bytes and consume them;
then run the emission step. -/
def feedChunk (s : DecState) (chunk : List Nat) : DecState × List (List Nat) :=
  let buf0 := s.buffer ++ chunk
  match s.expected with
  | none =>
    if 16 ≤ buf0.length then
      emitStep (buf0.drop 16) (parse_data_length (buf0.take 16))
    else
      (⟨buf0, none⟩, [])
  | some n => emitStep buf0 n

/-- Feed a sequence of received chunks through the decoder, collecting every
emitted frame in order. -/
def feedChunks (s : DecState) : List (List Nat) → DecState × List (List Nat)
  | [] => (s, [])
  | c :: cs =>
    let out1 := feedChunk s c
    let out2 := feedChunks out1.1 cs
    (out2.1, out1.2 ++ out2.2)

/-- Concatenation of a chunk sequence. -/
def joinList : List (List Nat) → List Nat
  | [] => []
  | c :: cs => c ++ joinList cs

lemma feedChunks_stuck_zero (buf : List Nat) (chunks : List (List Nat)) :
    feedChunks ⟨buf, some 0⟩ chunks = (⟨buf ++ joinList chunks, some 0⟩, []) := by
  induction chunks generalizing buf with
  | nil => simp [feedChunks, joinList]
  | cons c cs ih =>
    simp only [feedChunks, feedChunk, emitStep, joinList]
    simp [ih, List.append_assoc]

/-- **C9.** A frame header declaring a zero body length wedges the decoder:
from any state whose expected length is `0`, no chunk sequence ever emits a
frame or re-enters header parsing (the emission loop needs a non-zero
expected length, the header branch needs an unset one), every byte being
buffered forever; and a 16-byte header whose length field reads `0` puts a
fresh decoder into exactly that state. -/
theorem zero_length_frame_wedges_decoder :
    (∀ (buf : List Nat) (chunks : List (List Nat)),
       feedChunks ⟨buf, some 0⟩ chunks = (⟨buf ++ joinList chunks, some 0⟩, [])) ∧
    (∀ (header : List Nat) (chunks : List (List Nat)),
       header.length = 16 → parse_data_length header = 0 →
       feedChunks initDecState (header :: chunks) =
         (⟨joinList chunks, some 0⟩, [])) := by
  refine ⟨feedChunks_stuck_zero, ?_⟩
  intro header chunks h16 hlen
  have htake : header.take 16 = header := by
    rw [← h16, List.take_length]
  have hdrop : header.drop 16 = [] := by
    apply List.eq_nil_of_length_eq_zero
    simp [h16]
  simp only [feedChunks, feedChunk, initDecState, List.nil_append, h16,
    le_refl, if_pos, htake, hdrop, hlen, emitStep]
  simp [feedChunks_stuck_zero]

/-- Witness for C9: a decoder stuck at expected length `0` buffers three
more bytes across two chunks without emitting, and a 16-byte all-zero
header puts a fresh decoder into exactly that stuck state. -/
theorem zero_length_frame_wedges_decoder_witness :
    feedChunks ⟨[9], some 0⟩ [[1, 2], [3]] = (⟨[9, 1, 2, 3], some 0⟩, []) ∧
    feedChunks initDecState (List.replicate 16 0 :: [[7], [8]]) =
      (⟨[7, 8], some 0⟩, []) := by
  constructor
  · have h := zero_length_frame_wedges_decoder.1 [9] [[1, 2], [3]]
    simpa [joinList] using h
  · have h := zero_length_frame_wedges_decoder.2 (List.replicate 16 0) [[7], [8]]
      (by decide) (by decide)
    simpa [joinList] using h

lemma append_take_drop_take (l : List Nat) (k n : Nat) :
    l.take k ++ (l.drop k).take n = l.take (k + n) :=
  (List.take_add l k n).symm

/-- The decoder state after consuming the first `k` bytes of a single
well-formed frame `header ++ body`: inside the header, inside the body, or
reset after the frame completed. -/
def midState (H B : List Nat) (k : Nat) : DecState :=
  if k < 16 then ⟨(H ++ B).take k, none⟩
  else if k < 16 + B.length then ⟨B.take (k - 16), some B.length⟩
  else ⟨[], none⟩

lemma feedChunk_frame (H B c : List Nat) (k : Nat)
    (hH : H.length = 16) (hp : parse_data_length H = B.length) (hB : 0 < B.length)
    (hk : k + c.length ≤ 16 + B.length)
    (hc : c = ((H ++ B).drop k).take c.length) :
    feedChunk (midState H B k) c =
      (midState H B (k + c.length),
       if k + c.length = 16 + B.length ∧ k < 16 + B.length then [B] else []) := by
  have hlenHB : (H ++ B).length = 16 + B.length := by simp [hH]
  by_cases hlt : k < 16
  · have hms : midState H B k = ⟨(H ++ B).take k, none⟩ := by
      simp [midState, hlt]
    have hbuf : (H ++ B).take k ++ c = (H ++ B).take (k + c.length) := by
      conv_lhs => rw [hc]
      exact append_take_drop_take (H ++ B) k c.length
    have hlb : ((H ++ B).take (k + c.length)).length = k + c.length := by
      rw [List.length_take, hlenHB]
      omega
    rw [hms]
    simp only [feedChunk]
    rw [hbuf]
    by_cases h16 : 16 ≤ k + c.length
    · rw [if_pos (by rw [hlb]; exact h16)]
      have ht16 : ((H ++ B).take (k + c.length)).take 16 = H := by
        rw [List.take_take, min_eq_left h16, List.take_left' hH]
      have hd16 : ((H ++ B).take (k + c.length)).drop 16 =
          B.take (k + c.length - 16) := by
        rw [List.drop_take, List.drop_left' hH]
      rw [ht16, hd16, hp]
      by_cases hfull : k + c.length = 16 + B.length
      · have hBfull : B.take (k + c.length - 16) = B := by
          have h : k + c.length - 16 = B.length := by omega
          rw [h, List.take_length]
        rw [hBfull]
        simp only [emitStep]
        rw [if_pos ⟨by omega, le_refl _⟩]
        have hmfull : midState H B (k + c.length) = ⟨[], none⟩ := by
          unfold midState
          rw [if_neg (by omega), if_neg (by omega)]
        rw [List.drop_length, List.take_length, hmfull,
          if_pos ⟨hfull, by omega⟩]
      · have hlt2 : k + c.length < 16 + B.length := lt_of_le_of_ne hk hfull
        have hlb2 : (B.take (k + c.length - 16)).length = k + c.length - 16 := by
          rw [List.length_take]
          omega
        simp only [emitStep]
        rw [if_neg (by rw [hlb2]; omega)]
        have hmid : midState H B (k + c.length) =
            ⟨B.take (k + c.length - 16), some B.length⟩ := by
          unfold midState
          rw [if_neg (by omega), if_pos hlt2]
        rw [hmid, if_neg (by omega)]
    · rw [if_neg (by rw [hlb]; exact h16)]
      have hmid : midState H B (k + c.length) =
          ⟨(H ++ B).take (k + c.length), none⟩ := by
        unfold midState
        rw [if_pos (by omega)]
      rw [hmid, if_neg (by omega)]
  · by_cases hfullk : k < 16 + B.length
    · have hms : midState H B k = ⟨B.take (k - 16), some B.length⟩ := by
        unfold midState
        rw [if_neg hlt, if_pos hfullk]
      have hdropk : (H ++ B).drop k = B.drop (k - 16) := by
        conv_lhs => rw [show k = 16 + (k - 16) by omega, ← List.drop_drop,
          List.drop_left' hH]
      rw [hdropk] at hc
      have hbuf : B.take (k - 16) ++ c = B.take (k - 16 + c.length) := by
        conv_lhs => rw [hc]
        exact append_take_drop_take B (k - 16) c.length
      rw [hms]
      simp only [feedChunk]
      rw [hbuf]
      by_cases hfull : k + c.length = 16 + B.length
      · have hBfull : B.take (k - 16 + c.length) = B := by
          have h : k - 16 + c.length = B.length := by omega
          rw [h, List.take_length]
        rw [hBfull]
        simp only [emitStep]
        rw [if_pos ⟨by omega, le_refl _⟩]
        have hmfull : midState H B (k + c.length) = ⟨[], none⟩ := by
          unfold midState
          rw [if_neg (by omega), if_neg (by omega)]
        rw [List.drop_length, List.take_length, hmfull,
          if_pos ⟨hfull, by omega⟩]
      · have hlt2 : k + c.length < 16 + B.length := lt_of_le_of_ne hk hfull
        have hlb2 : (B.take (k - 16 + c.length)).length = k - 16 + c.length := by
          rw [List.length_take]
          omega
        simp only [emitStep]
        rw [if_neg (by rw [hlb2]; omega)]
        have hmid : midState H B (k + c.length) =
            ⟨B.take (k + c.length - 16), some B.length⟩ := by
          unfold midState
          rw [if_neg (by omega), if_pos hlt2]
        have h : k + c.length - 16 = k - 16 + c.length := by omega
        rw [hmid, h, if_neg (by omega)]
    · have hkfull : k = 16 + B.length := by omega
      have hdrop : (H ++ B).drop k = [] := by
        rw [List.drop_eq_nil_iff]
        omega
      rw [hdrop] at hc
      have hc0 : c = [] := by simpa using hc
      subst hc0
      have hms : midState H B k = ⟨[], none⟩ := by
        unfold midState
        rw [if_neg (by omega), if_neg (by omega)]
      have hk0 : k + ([] : List Nat).length = k := by simp
      rw [hk0, hms, if_neg (by omega)]
      rfl

lemma feedChunks_frame (H B : List Nat) (hH : H.length = 16)
    (hp : parse_data_length H = B.length) (hB : 0 < B.length) :
    ∀ (cs : List (List Nat)) (k : Nat), k ≤ 16 + B.length →
      joinList cs = (H ++ B).drop k →
      feedChunks (midState H B k) cs =
        (⟨[], none⟩, if k < 16 + B.length then [B] else []) := by
  have hlenHB : (H ++ B).length = 16 + B.length := by simp [hH]
  intro cs
  induction cs with
  | nil =>
    intro k hk hj
    have h1 : (H ++ B).length ≤ k := List.drop_eq_nil_iff.mp hj.symm
    rw [hlenHB] at h1
    have hms : midState H B k = ⟨[], none⟩ := by
      unfold midState
      rw [if_neg (by omega), if_neg (by omega)]
    rw [hms]
    simp only [feedChunks]
    rw [if_neg (by omega)]
  | cons c cs ih =>
    intro k hk hj
    rw [joinList] at hj
    have hc : c = ((H ++ B).drop k).take c.length := by
      have h := congrArg (List.take c.length) hj
      rw [List.take_left' rfl] at h
      exact h
    have hjoin' : joinList cs = (H ++ B).drop (k + c.length) := by
      have h := congrArg (List.drop c.length) hj
      rw [List.drop_left' rfl] at h
      rw [h, List.drop_drop]
    have hk' : k + c.length ≤ 16 + B.length := by
      have hlen := congrArg List.length hj
      rw [List.length_append, List.length_drop, hlenHB] at hlen
      omega
    have hstep := feedChunk_frame H B c k hH hp hB hk' hc
    have hrest := ih (k + c.length) hk' hjoin'
    simp only [feedChunks]
    rw [hstep]
    simp only
    rw [hrest]
    by_cases h1 : k + c.length = 16 + B.length
    · by_cases h2 : k < 16 + B.length
      · simp [h1, h2]
      · have : k = 16 + B.length := by omega
        simp [h1, h2, this]
    · have h2 : k + c.length < 16 + B.length := lt_of_le_of_ne hk' h1
      simp [h1, h2, show k < 16 + B.length by omega]

/-- **C7.** For every valid stream frame — a 16-byte header whose
little-endian length field at bytes 12..15 equals the length of the
(non-empty JSON) body — and every partition of the frame's bytes into
chunks fed to the decoder in order, the decoder emits exactly one frame,
byte-identical to the body, and ends reset for the next header. -/
theorem stream_reassembly (header body : List Nat) (chunks : List (List Nat))
    (hH : header.length = 16) (hp : parse_data_length header = body.length)
    (hB : body ≠ []) (hchunks : joinList chunks = header ++ body) :
    feedChunks initDecState chunks = (⟨[], none⟩, [body]) := by
  have hB' : 0 < body.length := List.length_pos.mpr hB
  have h0 : midState header body 0 = initDecState := by
    simp [midState, initDecState]
  have h := feedChunks_frame header body hH hp hB' chunks 0 (by omega)
    (by simpa using hchunks)
  rw [h0] at h
  rw [h, if_pos (by omega)]

/-- Witness for C7: a frame with body `[97, 98]` split into five ragged
chunks (3 + 6 + 5 + 3 + 1 bytes) is reassembled into exactly that body. -/
theorem stream_reassembly_witness :
    feedChunks initDecState
      [[0, 0, 0], [0, 0, 0, 0, 0, 0], [0, 0, 0, 2, 0], [0, 0, 97], [98]] =
      (⟨[], none⟩, [[97, 98]]) :=
  stream_reassembly [0, 0, 0, 0, 0, 0, 0, 0, 0, 0, 0, 0, 2, 0, 0, 0] [97, 98]
    [[0, 0, 0], [0, 0, 0, 0, 0, 0], [0, 0, 0, 2, 0], [0, 0, 97], [98]]
    (by decide) (by decide) (by decide) (by decide)

/-- JSON values, as produced by `json.loads` on a decoded frame body. -/
inductive JsonVal where
  | num (q : ℚ)
  | str (s : String)
  | arr (xs : List JsonVal)
  | obj (fields : List (String × JsonVal))
  | bool (b : Bool)
  | null

/-- `key.replace(" ", "_")`: for the one-character pattern the source uses,
Python's `str.replace` is exactly a character-wise substitution. -/
def replaceSpaces (s : String) : String :=
  String.mk (s.data.map fun ch => if ch = ' ' then '_' else ch)

/-- One entry of the `"data"` mapping of an analyses frame
(`listen_to_live_analyses` body): when the value is a list of length at
least 2 whose element at index 1 is itself a list, one OSC message is
produced, addressed by the analysis name with spaces replaced by
underscores and carrying that element; otherwise the entry is logged as
malformed and produces nothing. -/
def analysesEntryMessage (key : String) (v : JsonVal) : Option (String × JsonVal) :=
  match v with
  | JsonVal.arr xs =>
    if 2 ≤ xs.length then
      match xs.get? 1 with
      | some (JsonVal.arr inner) =>
        some ("/" ++ replaceSpaces key, JsonVal.arr inner)
      | _ => none
    else none
  | _ => none

/-- All OSC messages emitted for the entries of one analyses frame, in
order; malformed entries are skipped without aborting the iteration. -/
def analysesFrameMessages (entries : List (String × JsonVal)) :
    List (String × JsonVal) :=
  entries.filterMap fun e => analysesEntryMessage e.1 e.2

/-- Python list indexing `channels[i]` for a (possibly negative) index:
negative indices count from the end; `none` models the `IndexError` raised
when the index is out of range on both sides (in the source that exception
aborts the stream worker; the theorems below only use indices the source
reads successfully). -/
def pyIndexQ (channels : List ℚ) (i : Int) : Option ℚ :=
  if 0 ≤ i then channels.get? i.toNat
  else if 0 ≤ i + channels.length then channels.get? (i + channels.length).toNat
  else none

/-- OSC address for a selected channel (`f'/sensor_{channel}'`). -/
def sensorAddress (c : Int) : String := "/sensor_" ++ toString c

/-- Messages emitted for one data entry's channel values: for each selected
channel `c` (in selection order) with `c <= len(channels)`, one message to
`/sensor_{c}` carrying `channels[c-1] * DATA_MULTIPLIER` (the `none` case
of `pyIndexQ` is the `IndexError` corner `c = 0` on an empty value list,
which in the source aborts the worker; the theorems stay clear of it). -/
def entryMessages (sensors : List Int) (channels : List ℚ) : List (String × ℚ) :=
  match sensors with
  | [] => []
  | c :: rest =>
    if c ≤ (channels.length : Int) then
      match pyIndexQ channels (c - 1) with
      | some v => (sensorAddress c, v * DATA_MULTIPLIER) :: entryMessages rest channels
      | none => entryMessages rest channels
    else entryMessages rest channels

/-- Processing of one `[timestamp, channelValues]` entry of a data frame
against the per-stream `sent_timestamps` set (modelled as a duplicate-free
list): a fresh timestamp is added to the set and emits its channel
messages; an already-seen timestamp emits nothing. -/
def processEntry (sensors : List Int) (sent : List ℚ) (ts : ℚ)
    (channels : List ℚ) : List ℚ × List (String × ℚ) :=
  if ts ∈ sent then (sent, [])
  else (ts :: sent, entryMessages sensors channels)

/-- Processing of a sequence of data entries in order, threading the
`sent_timestamps` set and collecting every emitted message. -/
def processEntries (sensors : List Int) (sent : List ℚ) :
    List (ℚ × List ℚ) → List ℚ × List (String × ℚ)
  | [] => (sent, [])
  | (ts, ch) :: rest =>
    let out1 := processEntry sensors sent ts ch
    let out2 := processEntries sensors out1.1 rest
    (out2.1, out1.2 ++ out2.2)

/-- **C3 counterexample.** The source accepts any list of length **at
least** 2 (`len(analysis) >= 2`), not exactly 2: the 3-element entry
`{"x": [1, [2], 3]}` emits a message, refuting the claim's "if and only if
the entry's value is a 2-element sequence". -/
theorem analyses_entry_counterexample :
    analysesEntryMessage "x"
        (JsonVal.arr [JsonVal.num 1, JsonVal.arr [JsonVal.num 2], JsonVal.num 3]) =
      some ("/x", JsonVal.arr [JsonVal.num 2]) ∧
    [JsonVal.num 1, JsonVal.arr [JsonVal.num 2], JsonVal.num 3].length ≠ 2 := by
  exact ⟨rfl, by decide⟩

/-- **C3 (amended).** An analyses entry emits exactly one telemetry message
if and only if its value is a sequence of length **at least 2** whose
element at index 1 is itself a sequence; the message is addressed by the
analysis name with spaces replaced by underscores and carries that element.
Every other shape emits nothing and is skipped without aborting the rest of
the frame. In particular `{"x": [1, "not-a-list"]}` emits nothing and
`{"x": [1, [0.1, 0.2, 0.3]]}` emits one message to `/x` carrying
`[0.1, 0.2, 0.3]`. -/
theorem analyses_entry_amended :
    (∀ (k : String) (v : JsonVal) (m : String × JsonVal),
       analysesEntryMessage k v = some m ↔
         ∃ xs inner, v = JsonVal.arr xs ∧ 2 ≤ xs.length ∧
           xs.get? 1 = some (JsonVal.arr inner) ∧
           m = ("/" ++ replaceSpaces k, JsonVal.arr inner)) ∧
    (∀ (k : String) (v : JsonVal) (rest : List (String × JsonVal)),
       analysesEntryMessage k v = none →
       analysesFrameMessages ((k, v) :: rest) = analysesFrameMessages rest) ∧
    analysesEntryMessage "x" (JsonVal.arr [JsonVal.num 1, JsonVal.str "not-a-list"]) =
      none ∧
    analysesEntryMessage "x"
        (JsonVal.arr [JsonVal.num 1,
          JsonVal.arr [JsonVal.num (1/10), JsonVal.num (2/10), JsonVal.num (3/10)]]) =
      some ("/x",
        JsonVal.arr [JsonVal.num (1/10), JsonVal.num (2/10), JsonVal.num (3/10)]) := by
  refine ⟨?_, ?_, rfl, rfl⟩
  · intro k v m
    constructor
    · intro h
      cases v with
      | arr xs =>
        simp only [analysesEntryMessage] at h
        by_cases h2 : 2 ≤ xs.length
        · rw [if_pos h2] at h
          cases hx : xs.get? 1 with
          | none => rw [hx] at h; cases h
          | some y =>
            cases y with
            | arr inner =>
              rw [hx] at h
              cases h
              exact ⟨xs, inner, rfl, h2, hx, rfl⟩
            | num q => rw [hx] at h; cases h
            | str s => rw [hx] at h; cases h
            | obj f => rw [hx] at h; cases h
            | bool b => rw [hx] at h; cases h
            | null => rw [hx] at h; cases h
        · rw [if_neg h2] at h
          cases h
      | num q => cases h
      | str s => cases h
      | obj f => cases h
      | bool b => cases h
      | null => cases h
    · rintro ⟨xs, inner, rfl, h2, hx, rfl⟩
      simp only [analysesEntryMessage]
      rw [if_pos h2, hx]
  · intro k v rest h
    simp only [analysesFrameMessages, List.filterMap]
    rw [h]

/-- Witness for C3 (amended): a malformed entry at the head of a frame is
skipped and the rest of the frame still emits. -/
theorem analyses_entry_amended_witness :
    analysesFrameMessages
        [("bad", JsonVal.num 1), ("x", JsonVal.arr [JsonVal.num 1, JsonVal.arr []])] =
      analysesFrameMessages [("x", JsonVal.arr [JsonVal.num 1, JsonVal.arr []])] ∧
    analysesEntryMessage "a b" (JsonVal.arr [JsonVal.num 1, JsonVal.arr []]) =
      some ("/a_b", JsonVal.arr []) := by
  constructor
  · exact analyses_entry_amended.2.1 "bad" (JsonVal.num 1) _ rfl
  · exact (analyses_entry_amended.1 "a b" (JsonVal.arr [JsonVal.num 1, JsonVal.arr []])
      ("/a_b", JsonVal.arr [])).mpr
      ⟨[JsonVal.num 1, JsonVal.arr []], [], rfl, by decide, rfl, rfl⟩

lemma get?_eq_some_getD (l : List ℚ) (m : Nat) (h : m < l.length) :
    l.get? m = some (l.getD m 0) := by
  induction l generalizing m with
  | nil => simp at h
  | cons a t ih =>
    cases m with
    | zero => rfl
    | succ m =>
      simp only [List.get?, List.getD, List.getElem?_cons_succ]
      simpa [List.getD] using ih m (by simpa using h)

lemma entryMessages_eq (sensors : List Int) (channels : List ℚ)
    (h1 : ∀ c ∈ sensors, 1 ≤ c) :
    entryMessages sensors channels =
      (sensors.filter fun c => decide (c ≤ (channels.length : Int))).map
        fun c => (sensorAddress c, channels.getD (c - 1).toNat 0 * DATA_MULTIPLIER) := by
  induction sensors with
  | nil => rfl
  | cons c rest ih =>
    have hc : (1 : Int) ≤ c := h1 c (List.mem_cons_self c rest)
    have hrest := ih fun x hx => h1 x (List.mem_cons_of_mem c hx)
    simp only [entryMessages]
    rw [List.filter_cons]
    by_cases hle : c ≤ (channels.length : Int)
    · have hidx : (c - 1).toNat < channels.length := by omega
      have hval : pyIndexQ channels (c - 1) =
          some (channels.getD (c - 1).toNat 0) := by
        unfold pyIndexQ
        rw [if_pos (by omega)]
        exact get?_eq_some_getD channels (c - 1).toNat hidx
      rw [if_pos hle, hval, hrest]
      simp [hle]
    · rw [if_neg hle, hrest]
      simp [hle]

/-- **C4 counterexample.** With channel index 2 selected and a fresh-timestamp
entry carrying a single channel value, the claim demands exactly one message
(to `/sensor_2`), but the source's `channel <= len(channels)` guard emits
none: an out-of-range selected index produces no telemetry message. -/
theorem data_entry_counterexample :
    (processEntry [2] [] 0 [5]).2 = [] ∧ [(2 : Int)].length = 1 := by
  constructor
  · rfl
  · rfl

/-- **C4 (amended).** For a data entry whose timestamp is not yet in the
per-stream set, exactly one message is emitted per currently-selected
channel index `c` **with `c <= len(channelValues)`** (out-of-range selections
are skipped), addressed `/sensor_{c}` with value
`channelValues[c-1] * 10000`, and the timestamp is added to the set; an
entry with an already-seen timestamp emits nothing and leaves the set
unchanged; the set only grows; and a second entry with the same timestamp
(even with different channel values) emits nothing. Selected indices are
assumed positive (the source would read `channels[-1]` and below for
non-positive ones). -/
theorem data_entry_dedup_amended (sensors : List Int) (sent : List ℚ)
    (ts : ℚ) (ch ch2 : List ℚ) (h1 : ∀ c ∈ sensors, 1 ≤ c) :
    (ts ∉ sent →
      processEntry sensors sent ts ch =
        (ts :: sent,
         (sensors.filter fun c => decide (c ≤ (ch.length : Int))).map
           fun c => (sensorAddress c, ch.getD (c - 1).toNat 0 * DATA_MULTIPLIER))) ∧
    (ts ∈ sent → processEntry sensors sent ts ch = (sent, [])) ∧
    sent ⊆ (processEntry sensors sent ts ch).1 ∧
    (ts ∉ sent →
      processEntries sensors sent [(ts, ch), (ts, ch2)] =
        (ts :: sent,
         (sensors.filter fun c => decide (c ≤ (ch.length : Int))).map
           fun c => (sensorAddress c, ch.getD (c - 1).toNat 0 * DATA_MULTIPLIER))) := by
  have hfresh : ts ∉ sent →
      processEntry sensors sent ts ch =
        (ts :: sent,
         (sensors.filter fun c => decide (c ≤ (ch.length : Int))).map
           fun c => (sensorAddress c, ch.getD (c - 1).toNat 0 * DATA_MULTIPLIER)) := by
    intro hts
    unfold processEntry
    rw [if_neg hts, entryMessages_eq sensors ch h1]
  refine ⟨hfresh, ?_, ?_, ?_⟩
  · intro hts
    unfold processEntry
    rw [if_pos hts]
  · unfold processEntry
    by_cases hts : ts ∈ sent
    · rw [if_pos hts]
      exact fun x hx => hx
    · rw [if_neg hts]
      exact List.subset_cons_self ts sent
  · intro hts
    have hseen : processEntry sensors (ts :: sent) ts ch2 = (ts :: sent, []) := by
      unfold processEntry
      rw [if_pos (List.mem_cons_self ts sent)]
    simp only [processEntries]
    rw [hfresh hts]
    simp only [processEntries]
    rw [hseen]
    simp [processEntries]

/-- Witness for C4 (amended): selection `[1, 2, 3]` over a two-value entry
at fresh timestamp 5 emits `/sensor_1` and `/sensor_2` only, and a second
entry at timestamp 5 with different values adds nothing. -/
theorem data_entry_dedup_amended_witness :
    processEntries [1, 2, 3] [] [((5 : ℚ), [3, 4]), (5, [7, 8])] =
      ([5], [("/sensor_1", (30000 : ℚ)), ("/sensor_2", (40000 : ℚ))]) := by
  have h := (data_entry_dedup_amended [1, 2, 3] [] 5 [3, 4] [7, 8]
    (by decide)).2.2.2 (by simp)
  rw [h]
  norm_num [sensorAddress, DATA_MULTIPLIER, List.filter, List.getD]
  refine ⟨rfl, rfl, ?_⟩
  show (4 : ℚ) * 10000 = 40000
  norm_num

/-- An inbound OSC argument: integer, float, or string. Conversion failures
of `int()` / `float()` on non-numeric strings raise `ValueError` in the
source, modelled as `none`. -/
inductive OscArg where
  | i (n : Int)
  | f (q : ℚ)
  | s (str : String)
deriving Repr, DecidableEq

/-- Value of a decimal digit character (code points 48..57). -/
def digitVal (c : Char) : Option Nat :=
  let n := c.toNat
  if 48 ≤ n ∧ n ≤ 57 then some (n - 48) else none

/-- Accumulate a decimal digit sequence; any non-digit fails. -/
def digitsToNatAux : Nat → List Char → Option Nat
  | acc, [] => some acc
  | acc, c :: cs =>
    match digitVal c with
    | some d => digitsToNatAux (acc * 10 + d) cs
    | none => none

/-- A non-empty all-digit sequence as a number. -/
def digitsToNat (ds : List Char) : Option Nat :=
  match ds with
  | [] => none
  | _ => digitsToNatAux 0 ds

/-- Python `int(str)` for the plain `[-]digits` forms (whitespace,
underscores and `+` signs are out of the modelled scope); any other string
raises `ValueError`, modelled as `none`. -/
def pyIntOfString (s : String) : Option Int :=
  match s.data with
  | '-' :: ds => (digitsToNat ds).map fun n => -(n : Int)
  | ds => (digitsToNat ds).map fun n => (n : Int)

/-- Python `int(arg)`: identity on ints, truncation toward zero on floats,
digit-string parsing on strings (`none` models the `ValueError` a
non-numeric string raises). -/
def pyInt : OscArg → Option Int
  | .i n => some n
  | .f q => some (if 0 ≤ q then q.floor else q.ceil)
  | .s str => pyIntOfString str

/-- Python `float(arg)`: numeric arguments convert exactly; string parsing
is modelled for integer strings only (inbound OSC floats arrive typed, so
the theorems only exercise strings that fail to parse, where Python also
raises `ValueError`). -/
def pyFloat : OscArg → Option ℚ
  | .i n => some n
  | .f q => some q
  | .s str => (pyIntOfString str).map fun n => (n : ℚ)

/-- One threshold trigger condition of an analyzer event
(`{"type", "device", "channel", "comparator", "value"}`). -/
structure TriggerCondition where
  type : String
  device : String
  channel : Int
  comparator : String
  value : ℚ
deriving Repr, DecidableEq

/-- One analyzer event (`{"name", "previous", "start_when"}`). -/
structure AnalyzerEvent where
  name : String
  previous : String
  start_when : List TriggerCondition
deriving Repr, DecidableEq

/-- An analyzer descriptor (`analyzer_config_left` / `analyzer_config_right`
shape). -/
structure AnalyzerConfig where
  name : String
  analyzer_type : String
  time_reference_device : String
  learning_rate : ℚ
  initial_phase_durations : List ℚ
  events : List AnalyzerEvent
deriving Repr, DecidableEq

/-- The module-level mutable configuration shared between the OSC handlers
and the stream workers. -/
structure BridgeState where
  ANALYZER_LEFT_CHANNEL : Int
  ANALYZER_RIGHT_CHANNEL : Int
  ANALYZER_LEFT_THRESHOLD : ℚ
  ANALYZER_RIGHT_THRESHOLD : ℚ
  analyzer_config_left : AnalyzerConfig
  analyzer_config_right : AnalyzerConfig
  CURRENT_SENSORS : List Int
deriving Repr, DecidableEq

/-- In-place update of a list element (`xs[i] = f(xs[i])`); out-of-range
indices are untouched (Python would raise, but every call site below
addresses the fixed two-event, one-condition shape both module-level
descriptors have). -/
def modifyAt {α : Type} (l : List α) (i : Nat) (f : α → α) : List α :=
  match l, i with
  | [], _ => []
  | a :: rest, 0 => f a :: rest
  | a :: rest, i + 1 => a :: modifyAt rest i f

/-- `update_analyzer_config`: writes `ANALYZER_LEFT_CHANNEL - 1` and
`ANALYZER_LEFT_THRESHOLD` into the trigger condition of events 0 and 1 of
the **left** descriptor only. -/
def update_analyzer_config (s : BridgeState) : BridgeState :=
  let upd := fun (e : AnalyzerEvent) =>
    { e with start_when := modifyAt e.start_when 0 fun t =>
        { t with channel := s.ANALYZER_LEFT_CHANNEL - 1,
                 value := s.ANALYZER_LEFT_THRESHOLD } }
  { s with analyzer_config_left :=
      { s.analyzer_config_left with
          events := modifyAt (modifyAt s.analyzer_config_left.events 0 upd) 1 upd } }

/-- One attempted round trip of the resend sequence in
`send_analyzer_config`. -/
inductive ResendStep where
  | removeAnalyzer
  | sendName (analyzerName : String)
  | addAnalyzer
  | sendFull (cfg : AnalyzerConfig)
deriving Repr, DecidableEq

/-- `send_analyzer_config`, with the Command/Response channel abstracted:
`socketCount` is `len(SOCKETS)` and `ok1`..`ok4` are the outcomes of the
four potential round trips. Returns the new state and the list of steps
attempted in order: nothing when the sockets are missing; otherwise the
state is first mutated by `update_analyzer_config`, then remove-analyzer,
name-only push, add-analyzer and full-descriptor push run in order,
aborting after the first failed step, with no rollback of the mutation. -/
def send_analyzer_config (socketCount : Nat) (ok1 ok2 ok3 _ok4 : Bool)
    (s : BridgeState) : BridgeState × List ResendStep :=
  if socketCount < 2 then (s, [])
  else
    let s1 := update_analyzer_config s
    let nm := s1.analyzer_config_left.name
    if ¬ ok1 then (s1, [.removeAnalyzer])
    else if ¬ ok2 then (s1, [.removeAnalyzer, .sendName nm])
    else if ¬ ok3 then (s1, [.removeAnalyzer, .sendName nm, .addAnalyzer])
    else
      -- the fourth round trip is attempted whether or not it succeeds
      -- (`ok4` can only influence logging, which is outside the model)
      (s1, [.removeAnalyzer, .sendName nm, .addAnalyzer,
            .sendFull s1.analyzer_config_left])

/-- `analyzer_update_channels`: converts the first two OSC arguments with
`int()`. Python executes `ANALYZER_LEFT_CHANNEL = int(args[0])` to
completion before evaluating `int(args[1])`, so a conversion or index
failure on the second argument (caught `ValueError`/`IndexError`) leaves
the left channel already assigned; on success both globals are set and
`send_analyzer_config` runs. -/
def analyzer_update_channels (socketCount : Nat) (ok1 ok2 ok3 ok4 : Bool)
    (args : List OscArg) (s : BridgeState) : BridgeState × List ResendStep :=
  match (args.get? 0).bind pyInt with
  | none => (s, [])
  | some l =>
    let s1 := { s with ANALYZER_LEFT_CHANNEL := l }
    match (args.get? 1).bind pyInt with
    | none => (s1, [])
    | some r =>
      send_analyzer_config socketCount ok1 ok2 ok3 ok4
        { s1 with ANALYZER_RIGHT_CHANNEL := r }

/-- `analyzer_update_thresholds`: same shape as the channel handler, with
`float()` conversions into the threshold globals. -/
def analyzer_update_thresholds (socketCount : Nat) (ok1 ok2 ok3 ok4 : Bool)
    (args : List OscArg) (s : BridgeState) : BridgeState × List ResendStep :=
  match (args.get? 0).bind pyFloat with
  | none => (s, [])
  | some l =>
    let s1 := { s with ANALYZER_LEFT_THRESHOLD := l }
    match (args.get? 1).bind pyFloat with
    | none => (s1, [])
    | some r =>
      send_analyzer_config socketCount ok1 ok2 ok3 ok4
        { s1 with ANALYZER_RIGHT_THRESHOLD := r }

/-- `change_current_sensors`: `CURRENT_SENSORS = [int(arg) for arg in args]`
builds the whole list before assigning, so any conversion failure leaves the
selection unchanged. -/
def change_current_sensors (args : List OscArg) (s : BridgeState) : BridgeState :=
  match args.mapM pyInt with
  | none => s
  | some l => { s with CURRENT_SENSORS := l }

/-- The module-level initial state: channels 13/14, thresholds 5/5, and the
two descriptors with their threshold triggers (`channel` stored as the
1-based global minus 1). -/
def initState : BridgeState :=
  let device := "DelsysEmgDataCollector"
  { ANALYZER_LEFT_CHANNEL := 13
    ANALYZER_RIGHT_CHANNEL := 14
    ANALYZER_LEFT_THRESHOLD := 5
    ANALYZER_RIGHT_THRESHOLD := 5
    analyzer_config_left :=
      { name := "foot_cycle_left"
        analyzer_type := "cyclic_timed_events"
        time_reference_device := device
        learning_rate := 1 / 2
        initial_phase_durations := [400, 600]
        events :=
          [{ name := "heel_strike", previous := "toe_off",
             start_when := [{ type := "threshold", device := device,
                              channel := 12, comparator := ">=", value := 5 }] },
           { name := "toe_off", previous := "heel_strike",
             start_when := [{ type := "threshold", device := device,
                              channel := 12, comparator := "<", value := 5 }] }] }
    analyzer_config_right :=
      { name := "foot_cycle_right"
        analyzer_type := "cyclic_timed_events"
        time_reference_device := device
        learning_rate := 1 / 2
        initial_phase_durations := [400, 600]
        events :=
          [{ name := "heel_strike", previous := "toe_off",
             start_when := [{ type := "threshold", device := device,
                              channel := 13, comparator := ">=", value := 5 }] },
           { name := "toe_off", previous := "heel_strike",
             start_when := [{ type := "threshold", device := device,
                              channel := 13, comparator := "<", value := 5 }] }] }
    CURRENT_SENSORS := [] }

/-- The steps of the resend sequence attempted for given round-trip
outcomes: remove-analyzer, then name-only push, then add-analyzer, then
full-descriptor push, stopping after the first failure. -/
def resendTrace (ok1 ok2 ok3 : Bool) (nm : String) (cfg : AnalyzerConfig) :
    List ResendStep :=
  if ¬ ok1 then [.removeAnalyzer]
  else if ¬ ok2 then [.removeAnalyzer, .sendName nm]
  else if ¬ ok3 then [.removeAnalyzer, .sendName nm, .addAnalyzer]
  else [.removeAnalyzer, .sendName nm, .addAnalyzer, .sendFull cfg]

/-- A trigger condition with its channel and threshold fields rewritten. -/
def retarget (t : TriggerCondition) (ch : Int) (v : ℚ) : TriggerCondition :=
  { t with channel := ch, value := v }

/-- The two-event list with both trigger conditions rewritten. -/
def retargetEvents (e0 e1 : AnalyzerEvent) (t0 t1 : TriggerCondition)
    (ch : Int) (v : ℚ) : List AnalyzerEvent :=
  [{ e0 with start_when := [retarget t0 ch v] },
   { e1 with start_when := [retarget t1 ch v] }]

lemma update_analyzer_config_eq (s : BridgeState) (e0 e1 : AnalyzerEvent)
    (t0 t1 : TriggerCondition)
    (hev : s.analyzer_config_left.events = [e0, e1])
    (h0 : e0.start_when = [t0]) (h1 : e1.start_when = [t1]) :
    update_analyzer_config s =
      { s with analyzer_config_left :=
          { s.analyzer_config_left with events :=
              (retargetEvents e0 e1 t0 t1 (s.ANALYZER_LEFT_CHANNEL - 1)
                s.ANALYZER_LEFT_THRESHOLD) } } := by
  unfold update_analyzer_config
  rw [hev]
  simp [modifyAt, h0, h1, retargetEvents, retarget]

lemma send_analyzer_config_eq (n : Nat) (ok1 ok2 ok3 ok4 : Bool)
    (s : BridgeState) (hn : 2 ≤ n) :
    send_analyzer_config n ok1 ok2 ok3 ok4 s =
      (update_analyzer_config s,
       resendTrace ok1 ok2 ok3 (update_analyzer_config s).analyzer_config_left.name
         (update_analyzer_config s).analyzer_config_left) := by
  unfold send_analyzer_config resendTrace
  rw [if_neg (by omega)]
  split_ifs <;> rfl

/-- **C1 counterexample.** A channel-pair update `(5, 7)` leaves the
**right** descriptor completely untouched (its trigger channels stay at the
initial `14 - 1 = 13`), while the claim requires both descriptors' trigger
channel fields to be updated (the right one to `7 - 1 = 6`):
`update_analyzer_config` writes only `analyzer_config_left`. -/
theorem analyzer_pair_update_counterexample :
    (analyzer_update_channels 4 true true true true
        [OscArg.i 5, OscArg.i 7] initState).1.analyzer_config_right =
      initState.analyzer_config_right ∧
    ((analyzer_update_channels 4 true true true true
        [OscArg.i 5, OscArg.i 7] initState).1.analyzer_config_right.events.map
      fun e => e.start_when.map fun t => t.channel) = [[13], [13]] ∧
    (13 : Int) ≠ 7 - 1 := by
  refine ⟨rfl, rfl, by decide⟩

/-- **C1 (amended).** When a channel-pair update (two integers) or a
threshold-pair update (two floats) arrives and the channel sockets are
set up, both pairs of global scalars are stored, but only the **left**
analyzer descriptor's trigger fields are rewritten (channel stored as
`channel - 1`, together with the current left threshold; the right
descriptor is untouched), and then one 4-step resend sequence runs over the
left descriptor — remove analyzer, push name-only descriptor, add analyzer,
push full descriptor — aborting the remaining steps on the first failed
step, with no rollback of the local mutation. -/
theorem analyzer_pair_update_left_only
    (n : Nat) (ok1 ok2 ok3 ok4 : Bool) (s : BridgeState)
    (e0 e1 : AnalyzerEvent) (t0 t1 : TriggerCondition)
    (l r : Int) (lq rq : ℚ)
    (hn : 2 ≤ n)
    (hev : s.analyzer_config_left.events = [e0, e1])
    (h0 : e0.start_when = [t0]) (h1 : e1.start_when = [t1]) :
    analyzer_update_channels n ok1 ok2 ok3 ok4 [OscArg.i l, OscArg.i r] s =
      ({ s with
          ANALYZER_LEFT_CHANNEL := l, ANALYZER_RIGHT_CHANNEL := r,
          analyzer_config_left :=
            { s.analyzer_config_left with events :=
                (retargetEvents e0 e1 t0 t1 (l - 1) s.ANALYZER_LEFT_THRESHOLD) } },
       resendTrace ok1 ok2 ok3 s.analyzer_config_left.name
         { s.analyzer_config_left with events :=
             (retargetEvents e0 e1 t0 t1 (l - 1) s.ANALYZER_LEFT_THRESHOLD) }) ∧
    analyzer_update_thresholds n ok1 ok2 ok3 ok4 [OscArg.f lq, OscArg.f rq] s =
      ({ s with
          ANALYZER_LEFT_THRESHOLD := lq, ANALYZER_RIGHT_THRESHOLD := rq,
          analyzer_config_left :=
            { s.analyzer_config_left with events :=
                (retargetEvents e0 e1 t0 t1 (s.ANALYZER_LEFT_CHANNEL - 1) lq) } },
       resendTrace ok1 ok2 ok3 s.analyzer_config_left.name
         { s.analyzer_config_left with events :=
             (retargetEvents e0 e1 t0 t1 (s.ANALYZER_LEFT_CHANNEL - 1) lq) }) := by
  constructor
  · have h2 : analyzer_update_channels n ok1 ok2 ok3 ok4 [OscArg.i l, OscArg.i r] s =
        send_analyzer_config n ok1 ok2 ok3 ok4
          { s with ANALYZER_LEFT_CHANNEL := l, ANALYZER_RIGHT_CHANNEL := r } := rfl
    have hev2 : ({ s with ANALYZER_LEFT_CHANNEL := l, ANALYZER_RIGHT_CHANNEL := r } : BridgeState).analyzer_config_left.events = [e0, e1] := hev
    rw [h2, send_analyzer_config_eq n ok1 ok2 ok3 ok4 _ hn,
      update_analyzer_config_eq _ e0 e1 t0 t1 hev2 h0 h1]
  · have h2 : analyzer_update_thresholds n ok1 ok2 ok3 ok4 [OscArg.f lq, OscArg.f rq] s =
        send_analyzer_config n ok1 ok2 ok3 ok4
          { s with ANALYZER_LEFT_THRESHOLD := lq, ANALYZER_RIGHT_THRESHOLD := rq } := rfl
    have hev2 : ({ s with ANALYZER_LEFT_THRESHOLD := lq, ANALYZER_RIGHT_THRESHOLD := rq } : BridgeState).analyzer_config_left.events = [e0, e1] := hev
    rw [h2, send_analyzer_config_eq n ok1 ok2 ok3 ok4 _ hn,
      update_analyzer_config_eq _ e0 e1 t0 t1 hev2 h0 h1]

/-- Witness for C1 (amended): a concrete channel-pair update `(5, 7)` on the
initial state with a failing third step attempts exactly the first three
steps and leaves the left descriptor retargeted to channel `5 - 1 = 4`. -/
theorem analyzer_pair_update_left_only_witness :
    ((analyzer_update_channels 4 true true false true
        [OscArg.i 5, OscArg.i 7] initState).1.analyzer_config_left.events.map
      fun e => e.start_when.map fun t => (t.channel, t.value)) =
        [[((4 : Int), (5 : ℚ))], [(4, 5)]] ∧
    (analyzer_update_channels 4 true true false true
        [OscArg.i 5, OscArg.i 7] initState).1.ANALYZER_LEFT_CHANNEL = 5 ∧
    (analyzer_update_channels 4 true true false true
        [OscArg.i 5, OscArg.i 7] initState).1.ANALYZER_RIGHT_CHANNEL = 7 ∧
    (analyzer_update_channels 4 true true false true
        [OscArg.i 5, OscArg.i 7] initState).2 =
      [ResendStep.removeAnalyzer, ResendStep.sendName "foot_cycle_left",
       ResendStep.addAnalyzer] := by
  have h := (analyzer_pair_update_left_only 4 true true false true initState
    { name := "heel_strike", previous := "toe_off",
      start_when := [{ type := "threshold", device := "DelsysEmgDataCollector",
                       channel := 12, comparator := ">=", value := 5 }] }
    { name := "toe_off", previous := "heel_strike",
      start_when := [{ type := "threshold", device := "DelsysEmgDataCollector",
                       channel := 12, comparator := "<", value := 5 }] }
    { type := "threshold", device := "DelsysEmgDataCollector",
      channel := 12, comparator := ">=", value := 5 }
    { type := "threshold", device := "DelsysEmgDataCollector",
      channel := 12, comparator := "<", value := 5 }
    5 7 5 6 (by omega) rfl rfl rfl).1
  rw [h]
  refine ⟨rfl, rfl, rfl, rfl⟩

/-- **C2 counterexample.** A channel-pair update whose second argument fails
`int()` conversion does **not** leave the configuration unchanged: the
assignment `ANALYZER_LEFT_CHANNEL = int(args[0])` has already executed when
`int(args[1])` raises, so `(5, "left-foot")` moves the left channel from 13
to 5 (the error is caught and no resend step runs). -/
theorem malformed_args_counterexample :
    (analyzer_update_channels 4 true true true true
        [OscArg.i 5, OscArg.s "left-foot"] initState).1 =
      { initState with ANALYZER_LEFT_CHANNEL := 5 } ∧
    initState.ANALYZER_LEFT_CHANNEL = 13 ∧ (5 : Int) ≠ 13 ∧
    (analyzer_update_channels 4 true true true true
        [OscArg.i 5, OscArg.s "left-foot"] initState).2 = [] := by
  refine ⟨rfl, rfl, by decide, rfl⟩

/-- **C2 (amended).** Malformed inbound control-message arguments are caught
and logged; the state effect depends on where the failure happens: a
selection update (`/sensors`) with any failing conversion leaves the state
unchanged; a channel- or threshold-pair update whose **first** argument fails
leaves the state unchanged; one whose **second** argument fails (or is
missing) leaves the **left** field already set to the converted first
argument, with the right field, both descriptors and the selection
untouched, and no resend step runs in any failure case. -/
theorem malformed_args_amended :
    (∀ (args : List OscArg) (s : BridgeState), args.mapM pyInt = none →
       change_current_sensors args s = s) ∧
    (∀ (n : Nat) (o1 o2 o3 o4 : Bool) (args : List OscArg) (s : BridgeState),
       (args.get? 0).bind pyInt = none →
       analyzer_update_channels n o1 o2 o3 o4 args s = (s, [])) ∧
    (∀ (n : Nat) (o1 o2 o3 o4 : Bool) (args : List OscArg) (s : BridgeState)
       (l : Int),
       (args.get? 0).bind pyInt = some l →
       (args.get? 1).bind pyInt = none →
       analyzer_update_channels n o1 o2 o3 o4 args s =
         ({ s with ANALYZER_LEFT_CHANNEL := l }, [])) ∧
    (∀ (n : Nat) (o1 o2 o3 o4 : Bool) (args : List OscArg) (s : BridgeState),
       (args.get? 0).bind pyFloat = none →
       analyzer_update_thresholds n o1 o2 o3 o4 args s = (s, [])) ∧
    (∀ (n : Nat) (o1 o2 o3 o4 : Bool) (args : List OscArg) (s : BridgeState)
       (lq : ℚ),
       (args.get? 0).bind pyFloat = some lq →
       (args.get? 1).bind pyFloat = none →
       analyzer_update_thresholds n o1 o2 o3 o4 args s =
         ({ s with ANALYZER_LEFT_THRESHOLD := lq }, [])) := by
  refine ⟨?_, ?_, ?_, ?_, ?_⟩
  · intro args s h
    unfold change_current_sensors
    rw [h]
  · intro n o1 o2 o3 o4 args s h
    unfold analyzer_update_channels
    rw [h]
  · intro n o1 o2 o3 o4 args s l h h2
    unfold analyzer_update_channels
    rw [h, h2]
  · intro n o1 o2 o3 o4 args s h
    unfold analyzer_update_thresholds
    rw [h]
  · intro n o1 o2 o3 o4 args s lq h h2
    unfold analyzer_update_thresholds
    rw [h, h2]

/-- Witness for C2 (amended): each failure shape at a concrete input — a
non-numeric selection argument, an empty channel-pair message, a failing
second channel argument, a non-numeric first threshold argument, and a
failing second threshold argument. -/
theorem malformed_args_amended_witness :
    change_current_sensors [OscArg.s "oops"] initState = initState ∧
    analyzer_update_channels 4 true true true true [] initState =
      (initState, []) ∧
    analyzer_update_channels 4 true true true true
        [OscArg.i 5, OscArg.s "oops"] initState =
      ({ initState with ANALYZER_LEFT_CHANNEL := 5 }, []) ∧
    analyzer_update_thresholds 4 true true true true [OscArg.s "oops"] initState =
      (initState, []) ∧
    analyzer_update_thresholds 4 true true true true
        [OscArg.f 6, OscArg.s "oops"] initState =
      ({ initState with ANALYZER_LEFT_THRESHOLD := 6 }, []) :=
  ⟨malformed_args_amended.1 [OscArg.s "oops"] initState rfl,
   malformed_args_amended.2.1 4 true true true true [] initState rfl,
   malformed_args_amended.2.2.1 4 true true true true
     [OscArg.i 5, OscArg.s "oops"] initState 5 rfl rfl,
   malformed_args_amended.2.2.2.1 4 true true true true
     [OscArg.s "oops"] initState rfl,
   malformed_args_amended.2.2.2.2 4 true true true true
     [OscArg.f 6, OscArg.s "oops"] initState 6 rfl rfl⟩

/-- Outcome of `connect_and_handshake`: the returned value (`none` models
the Python `False`), the sockets closed during the call (identified by their
port), and whether a handshake packet was sent. -/
structure CAHOutcome where
  result : Option (List Nat)
  closed : List Nat
  handshakeAttempted : Bool
deriving Repr, DecidableEq

/-- The connection loop: try each port in order (`conn` tells whether
`socket.create_connection` succeeds for a port); on the first failure
return the sockets opened so far on the left (the source then closes them
all and returns `False`), otherwise all opened sockets on the right. -/
def connectPorts (conn : Nat → Bool) (opened : List Nat) :
    List Nat → (List Nat) ⊕ (List Nat)
  | [] => .inr opened
  | p :: rest =>
    if conn p then connectPorts conn (opened ++ [p]) rest
    else .inl opened

/-- `connect_and_handshake`: connect to every port in order; on any
connection failure close every already-opened socket and return `False`
without attempting a handshake. With all sockets open, send the HANDSHAKE
packet on the first socket and read 16 response bytes: an interpretation
error returns `False` **without closing anything**; otherwise the socket
list is returned — the response's status field is never checked. The outer
`none` models the uncaught `IndexError` of `sockets[0]` on an empty port
list (the fixed configuration always passes four ports). -/
def connect_and_handshake (conn : Nat → Bool) (ports : List Nat)
    (resp : List Nat) : Option CAHOutcome :=
  match connectPorts conn [] ports with
  | .inl opened => some ⟨none, opened, false⟩
  | .inr opened =>
    if opened.length = ports.length then
      match opened with
      | [] => none
      | _ :: _ =>
        if hasError (interpret_response resp) then some ⟨none, [], true⟩
        else some ⟨some opened, [], true⟩
    else some ⟨some opened, [], false⟩

lemma connectPorts_failure (conn : Nat → Bool) (p : Nat) (B : List Nat)
    (hp : conn p = false) :
    ∀ (A : List Nat) (acc : List Nat), (∀ q ∈ A, conn q = true) →
      connectPorts conn acc (A ++ p :: B) = .inl (acc ++ A) := by
  intro A
  induction A with
  | nil =>
    intro acc _
    simp [connectPorts, hp]
  | cons a A ih =>
    intro acc hA
    have ha : conn a = true := hA a (List.mem_cons_self a A)
    simp only [List.cons_append, connectPorts, ha, if_pos, List.append_eq]
    rw [ih (acc ++ [a]) fun q hq => hA q (List.mem_cons_of_mem a hq)]
    simp

lemma connectPorts_success (conn : Nat → Bool) :
    ∀ (ports : List Nat) (acc : List Nat), (∀ q ∈ ports, conn q = true) →
      connectPorts conn acc ports = .inr (acc ++ ports) := by
  intro ports
  induction ports with
  | nil =>
    intro acc _
    simp [connectPorts]
  | cons a t ih =>
    intro acc hA
    have ha : conn a = true := hA a (List.mem_cons_self a t)
    simp only [connectPorts, ha, if_pos]
    rw [ih (acc ++ [a]) fun q hq => hA q (List.mem_cons_of_mem a hq)]
    simp

/-- **C6.** `connect_and_handshake` is all-or-nothing over the connection
phase: it opens one TCP connection per port in the given order, and on the
first port whose connection fails, every previously opened socket is closed,
`False` is returned, and no handshake packet is ever sent — no incomplete
channel set survives. -/
theorem connect_all_or_nothing (conn : Nat → Bool) (A : List Nat) (p : Nat)
    (B : List Nat) (resp : List Nat)
    (hA : ∀ q ∈ A, conn q = true) (hp : conn p = false) :
    connect_and_handshake conn (A ++ p :: B) resp =
      some ⟨none, A, false⟩ := by
  unfold connect_and_handshake
  rw [connectPorts_failure conn p B hp A [] hA]
  simp

/-- Witness for C6: with the 3rd of the 4 configured ports failing to
connect, exactly the first two sockets are closed, `False` is returned and
no handshake is attempted. -/
theorem connect_all_or_nothing_witness :
    connect_and_handshake (fun p => p != 5125) [5123, 5124, 5125, 5126] [] =
      some ⟨none, [5123, 5124], false⟩ :=
  connect_all_or_nothing (fun p => p != 5125) [5123, 5124] 5125 [5126] []
    (by decide) (by decide)

/-- **C10.** When every connection opens but the 16-byte handshake response
fails to interpret (wrong length or wrong version), `connect_and_handshake`
returns `False` while closing **no** socket — unlike the connection-failure
path, all opened sockets stay open; and when the response interprets, the
handshake succeeds and the sockets are returned regardless of the
response's status field, which is never examined. -/
theorem handshake_failure_keeps_sockets (conn : Nat → Bool) (ports : List Nat)
    (resp : List Nat) (hall : ∀ q ∈ ports, conn q = true) (hne : ports ≠ []) :
    (hasError (interpret_response resp) = true →
      connect_and_handshake conn ports resp = some ⟨none, [], true⟩) ∧
    (hasError (interpret_response resp) = false →
      connect_and_handshake conn ports resp = some ⟨some ports, [], true⟩) := by
  obtain ⟨a, t, rfl⟩ := List.exists_cons_of_ne_nil hne
  unfold connect_and_handshake
  rw [connectPorts_success conn (a :: t) [] hall]
  simp only [List.nil_append, if_pos rfl]
  constructor
  · intro hErr
    rw [hErr]
    rfl
  · intro hErr
    rw [hErr]
    rfl

/-- Witness for C10: with all four ports connecting, a 3-byte handshake
response returns `False` with nothing closed, and a 16-byte version-1
response with **status 0** still succeeds. -/
theorem handshake_failure_keeps_sockets_witness :
    connect_and_handshake (fun _ => true) [5123, 5124, 5125, 5126] [1, 2, 3] =
      some ⟨none, [], true⟩ ∧
    connect_and_handshake (fun _ => true) [5123, 5124, 5125, 5126]
        [1, 0, 0, 0, 0, 0, 0, 0, 0, 0, 0, 0, 0, 0, 0, 0] =
      some ⟨some [5123, 5124, 5125, 5126], [], true⟩ :=
  ⟨(handshake_failure_keeps_sockets (fun _ => true) [5123, 5124, 5125, 5126]
      [1, 2, 3] (by decide) (by decide)).1 (by decide),
   (handshake_failure_keeps_sockets (fun _ => true) [5123, 5124, 5125, 5126]
      [1, 0, 0, 0, 0, 0, 0, 0, 0, 0, 0, 0, 0, 0, 0, 0] (by decide)
      (by decide)).2 (by decide)⟩

end MusiGait
